/-
  Verification of the request-admission pipeline of cmd/ssh_usercert_gen
  (keymaster).  The Go source is embedded shallowly: external collaborators
  (LDAP exchange, htpasswd file, the certgen signing oracle, multipart-form
  parsing) are parameters supplied through environment structures, while all
  control flow of `checkUserPassword`, `checkAuth`, `writeFailureResponse`
  and `certGenHandler` is transcribed from main.go.  Ghost event lists record
  which backends / oracles a run consulted.
-/
import Mathlib

set_option maxRecDepth 16000

namespace SSHCertGen

instance {ε α : Type} [DecidableEq ε] [DecidableEq α] :
    DecidableEq (Except ε α)
  | .error a, .error b => decidable_of_iff (a = b) (by simp)
  | .error _, .ok _ => isFalse (by simp)
  | .ok _, .error _ => isFalse (by simp)
  | .ok a, .ok b => decidable_of_iff (a = b) (by simp)

/- ---------------------------------------------------------------------
   The public-key grammar of the POST path.

   main.go line 254 matches the uploaded key against the RE2 pattern
     ^(ssh-rsa|ssh-dss|ecdsa-sha2-nistp256|ssh-ed25519) [a-zA-Z0-9/+]+=?=? ?.{0,512}\n?$
   (anchored, `.` does not match a newline).  The matcher below transcribes
   that pattern piecewise over the character list of the input, with full
   backtracking, so it accepts exactly the strings the pattern matches.
   --------------------------------------------------------------------- -/

/-- Character class `[a-zA-Z0-9/+]` of the pattern. -/
def isB64Char (c : Char) : Bool :=
  (('a' ≤ c && c ≤ 'z') || ('A' ≤ c && c ≤ 'Z') || ('0' ≤ c && c ≤ '9')
    || c = '/' || c = '+')

/-- Tail matcher for `.{0,n}\n?$`: up to `n` non-newline characters, then an
optional single newline, then end of input. -/
def commentNl : Nat → List Char → Bool
  | _, [] => true
  | n, c :: t =>
    if c = '\n' then t.isEmpty
    else
      match n with
      | 0 => false
      | m + 1 => commentNl m t

/-- Matcher for ` ?.{0,512}\n?$` (the optional space and the comment). -/
def matchSpComment (cs : List Char) : Bool :=
  commentNl 512 cs ||
    match cs with
    | ' ' :: t => commentNl 512 t
    | _ => false

/-- Matcher for `=?=?` followed by the continuation `k`. -/
def eqPadWith (k : List Char → Bool) (cs : List Char) : Bool :=
  k cs ||
    match cs with
    | '=' :: t => k t || (match t with | '=' :: t2 => k t2 | _ => false)
    | _ => false

/-- Matcher for `[a-zA-Z0-9/+]*` followed by the continuation `k`
(all split points tried). -/
def restWith (k : List Char → Bool) : List Char → Bool
  | [] => k []
  | c :: t => k (c :: t) || (isB64Char c && restWith k t)

/-- Matcher for `[a-zA-Z0-9/+]+` followed by the continuation `k`. -/
def payloadWith (k : List Char → Bool) : List Char → Bool
  | [] => false
  | c :: t => isB64Char c && restWith k t

/-- Strip the literal `ps` from the front of `cs`. -/
def stripLit : List Char → List Char → Option (List Char)
  | [], cs => some cs
  | _ :: _, [] => none
  | p :: ps, c :: cs => if p = c then stripLit ps cs else none

/-- The algorithm alternation of the pattern. -/
def sshKeyAlgs : List (List Char) :=
  ["ssh-rsa".data, "ssh-dss".data, "ecdsa-sha2-nistp256".data,
    "ssh-ed25519".data]

/-- `<algorithm> <base64>+ =?=?` followed by comment matcher `k`. -/
def keyLineWith (k : List Char → Bool) (cs : List Char) : Bool :=
  sshKeyAlgs.any fun alg =>
    match stripLit (alg ++ [' ']) cs with
    | some rest => payloadWith (eqPadWith k) rest
    | none => false

/-- The key validator of main.go line 254: the full RE2 pattern. -/
def validSSHKeyChars : List Char → Bool := keyLineWith matchSpComment

/-- `regexp.MatchString` of the fixed pattern on a string. -/
def validSSHKey (s : String) : Bool := validSSHKeyChars s.data

/-- Modelled from the spec: comment tail exactly as the specification words
it — the line ends right away (optionally with one newline), or a mandatory
space separates the payload from a comment of at most 512 characters. -/
def specCommentTail (cs : List Char) : Bool :=
  match cs with
  | [] => true
  | ['\n'] => true
  | ' ' :: t => commentNl 512 t
  | _ => false

/-- Modelled from the spec: the key grammar exactly as claimed —
`<algorithm-token><space><base64-payload>[<space><comment up to 512>]` with
an optional trailing newline; the space before a comment is mandatory. -/
def claimedKeyChars : List Char → Bool := keyLineWith specCommentTail

/-- The claimed grammar on a string. -/
def claimedKeyGrammar (s : String) : Bool := claimedKeyChars s.data

/-- Declarative form of the grammar the regex actually accepts: the space
between the base64 payload and the comment is OPTIONAL (the only difference
from the claimed grammar). -/
def amendedKeyGrammar (s : String) : Prop :=
  ∃ alg b64 pad sep comment nl,
    s.data = alg ++ [' '] ++ b64 ++ pad ++ sep ++ comment ++ nl ∧
    alg ∈ sshKeyAlgs ∧
    b64 ≠ [] ∧ (∀ c ∈ b64, isB64Char c = true) ∧
    (pad = [] ∨ pad = ['='] ∨ pad = ['=', '=']) ∧
    (sep = [] ∨ sep = [' ']) ∧
    comment.length ≤ 512 ∧ (∀ c ∈ comment, ¬ c = '\n') ∧
    (nl = [] ∨ nl = ['\n'])

/- ---------------------------------------------------------------------
   Configuration structures (main.go lines 32-55).
   --------------------------------------------------------------------- -/

structure baseConfig where
  Http_Address : String
  TLS_Cert_Filename : String
  TLS_Key_Filename : String
  UserAuth : String
  SSH_CA_Filename : String
  Htpasswd_Filename : String

structure LdapConfig where
  Bind_Pattern : String
  LDAP_Target_URLs : String

structure AppConfigFile where
  Base : baseConfig
  Ldap : LdapConfig

structure RuntimeState where
  Config : AppConfigFile
  Signer : String
  HostIdentity : String

/- ---------------------------------------------------------------------
   The authenticator (main.go lines 130-169).  The external credential
   verifiers (authutil.ParseLDAPURL, authutil.CheckLDAPUserPassword,
   ioutil.ReadFile, authutil.CheckHtpasswdUserPassword) and fmt.Sprintf
   are parameters of an environment; Go `err != nil` results are `.error`.
   --------------------------------------------------------------------- -/

structure AuthEnv where
  sprintf : String → String → String
  parseLDAPURL : String → Option String
  checkLDAPUserPassword : String → String → String → Nat → Except Unit Bool
  readFile : String → Except Unit (List UInt8)
  checkHtpasswdUserPassword : String → String → List UInt8 → Except Unit Bool

/-- Ghost record of which backend a run of the authenticator consulted. -/
inductive AuthEvent where
  | ldap (url : String)
  | htpasswd (filename : String)
  deriving DecidableEq

/-- main.go line 139. -/
def timeoutSecs : Nat := 3

/-- Go `strings.Split(s, ",")` over the character list: every comma is a
separator; `""` yields `[""]`. -/
def splitComma : List Char → List (List Char)
  | [] => [[]]
  | c :: t =>
    if c = ',' then [] :: splitComma t
    else
      match splitComma t with
      | [] => [[c]]
      | g :: gs => (c :: g) :: gs

/-- `strings.Split(config.Ldap.LDAP_Target_URLs, ",")` (main.go line 141). -/
def splitTargetURLs (s : String) : List String :=
  (splitComma s.data).map String.mk

/-- main.go lines 130-132: `fmt.Sprintf(bind_pattern, username)`. -/
def convertToBindDN (env : AuthEnv) (username : String)
    (bind_pattern : String) : String :=
  env.sprintf bind_pattern username

/-- The LDAP loop of main.go lines 141-155: parse failures and exchange
errors `continue`; the first successful exchange returns its verdict.  The
second component records the URLs consulted, in order. -/
def checkLdapBackends (env : AuthEnv) (bindDN password : String) :
    List String → Option Bool × List AuthEvent
  | [] => (none, [])
  | ldapUrl :: rest =>
    match env.parseLDAPURL ldapUrl with
    | none =>
      let r := checkLdapBackends env bindDN password rest
      (r.1, .ldap ldapUrl :: r.2)
    | some u =>
      match env.checkLDAPUserPassword u bindDN password timeoutSecs with
      | .error _ =>
        let r := checkLdapBackends env bindDN password rest
        (r.1, .ldap ldapUrl :: r.2)
      | .ok vaild => (some vaild, [.ldap ldapUrl])

/-- main.go lines 134-169 (`checkUserPassword`): LDAP URLs from splitting
`LDAP_Target_URLs` on ",", then — only when no LDAP backend answered — the
htpasswd file when one is configured, else `(false, nil)`. -/
def checkUserPassword (env : AuthEnv) (username password : String)
    (config : AppConfigFile) : Except Unit Bool × List AuthEvent :=
  let bindDN := convertToBindDN env username config.Ldap.Bind_Pattern
  match checkLdapBackends env bindDN password
      (splitTargetURLs config.Ldap.LDAP_Target_URLs) with
  | (some vaild, tr) => (.ok vaild, tr)
  | (none, tr) =>
    if config.Base.Htpasswd_Filename ≠ "" then
      match env.readFile config.Base.Htpasswd_Filename with
      | .error e => (.error e, tr ++ [.htpasswd config.Base.Htpasswd_Filename])
      | .ok buffer =>
        match env.checkHtpasswdUserPassword username password buffer with
        | .error e =>
          (.error e, tr ++ [.htpasswd config.Base.Htpasswd_Filename])
        | .ok valid =>
          (.ok valid, tr ++ [.htpasswd config.Base.Htpasswd_Filename])
    else (.ok false, tr)

/-- A backend fails structurally for this credential: its URL does not parse,
or the LDAP exchange itself errors (unreachable endpoint). -/
def structFail (env : AuthEnv) (bindDN password ldapUrl : String) : Prop :=
  env.parseLDAPURL ldapUrl = none ∨
    ∃ u, env.parseLDAPURL ldapUrl = some u ∧
      ∃ e, env.checkLDAPUserPassword u bindDN password timeoutSecs = .error e

/-- The definitive verdict of a backend, when it evaluates the credential. -/
def evalDefinitive (env : AuthEnv) (bindDN password ldapUrl : String) :
    Option Bool :=
  match env.parseLDAPURL ldapUrl with
  | none => none
  | some u =>
    match env.checkLDAPUserPassword u bindDN password timeoutSecs with
    | .error _ => none
    | .ok v => some v

/-- The htpasswd backend fails structurally: the file cannot be read, or the
htpasswd evaluation itself errors. -/
def htpasswdStructFail (env : AuthEnv) (username password fname : String) :
    Prop :=
  env.readFile fname = .error () ∨
    ∃ buf, env.readFile fname = .ok buf ∧
      env.checkHtpasswdUserPassword username password buf = .error ()

/- ---------------------------------------------------------------------
   HTTP layer (main.go lines 171-283).
   --------------------------------------------------------------------- -/

structure Headers where
  wwwAuthenticate : Option String := none
  contentDisposition : Option String := none
  others : List (String × String) := []
  deriving DecidableEq

structure Response where
  status : Nat
  headers : Headers
  body : String
  deriving DecidableEq

/-- Go `http.StatusText` for the codes this program emits. -/
def statusText : Nat → String
  | 200 => "OK"
  | 400 => "Bad Request"
  | 401 => "Unauthorized"
  | 403 => "Forbidden"
  | 404 => "Not Found"
  | 405 => "Method Not Allowed"
  | 500 => "Internal Server Error"
  | _ => ""

/-- main.go lines 171-178: sets the WWW-Authenticate challenge exactly when
the code is 401, writes the code and the public error text. -/
def writeFailureResponse (h : Headers) (code : Nat) (message : String) :
    Response :=
  let h' := if code = 401 then
      { h with wwwAuthenticate := some "Basic realm=\"User Credentials\"" }
    else h
  { status := code, headers := h',
    body := toString code ++ " " ++ statusText code ++ " " ++ message ++ "\n" }

/-- Go `http.NotFound(w, r)` (main.go line 229). -/
def notFoundResponse (h : Headers) : Response :=
  { status := 404, headers := h, body := "404 page not found\n" }

/-- A request as the handler sees it: `r.BasicAuth()` yields `none` when the
Authorization header is absent or malformed. -/
structure Request where
  method : String
  path : String
  basicAuth : Option (String × String)

/-- main.go lines 181-201 (`checkAuth`): on failure the written failure
response is returned as the error; on success the authenticated username. -/
def checkAuth (env : AuthEnv) (h : Headers) (r : Request)
    (config : AppConfigFile) : Except Response String :=
  match r.basicAuth with
  | none => .error (writeFailureResponse h 401 "")
  | some (user, pass) =>
    match (checkUserPassword env user pass config).1 with
    | .error _ => .error (writeFailureResponse h 500 "")
    | .ok valid =>
      if !valid then .error (writeFailureResponse h 401 "")
      else .ok user

/-- main.go line 203. -/
def CERTGEN_PATH : String := "/certgen/"

/-- Environment of the handler: the signing oracle (certgen) and the
multipart-form machinery of net/http, per request.  `formFile` is the full
buffered content of the "pubkeyfile" form file (`buf.ReadFrom(file)`). -/
structure HandlerEnv where
  auth : AuthEnv
  genSSHCertFileStringFromSSSDPublicKey :
    String → String → String → Except Unit String
  genSSHCertFileString :
    String → String → String → String → Except Unit String
  parseMultipartForm : Nat → Except Unit Unit
  formFile : Except Unit String

/-- Ghost record of the key validations and signing-oracle calls a run of
the handler performed. -/
inductive HandlerEvent where
  | validateKey (key : String)
  | oracleGet (user : String)
  | oraclePost (user : String) (key : String)
  deriving DecidableEq

/-- main.go lines 279-281: the 200 response with the attachment header. -/
def successResponse (h : Headers) (cert : String) : Response :=
  { status := 200,
    headers :=
      { h with
        contentDisposition := some "attachment; filename=\"id_rsa-cert.pub\"" },
    body := cert }

/-- main.go lines 205-283 (`certGenHandler`), transcribed branch for branch.
The regexp of line 254 is a fixed valid pattern, so `regexp.MatchString`
never returns an error for it and the line-255 error branch is dead.  The
second component is the ghost event list. -/
def certGenHandler (state : RuntimeState) (env : HandlerEnv) (r : Request) :
    Response × List HandlerEvent :=
  let h : Headers := {}
  match checkAuth env.auth h r state.Config with
  | .error resp => (resp, [])
  | .ok authUser =>
    let targetUser := r.path.drop CERTGEN_PATH.length
    if authUser ≠ targetUser then
      (writeFailureResponse h 403 "", [])
    else if r.method = "GET" then
      match env.genSSHCertFileStringFromSSSDPublicKey targetUser state.Signer
          state.HostIdentity with
      | .error _ => (notFoundResponse h, [.oracleGet targetUser])
      | .ok cert => (successResponse h cert, [.oracleGet targetUser])
    else if r.method = "POST" then
      match env.parseMultipartForm 10000000 with
      | .error _ => (writeFailureResponse h 400 "Error parsing form", [])
      | .ok _ =>
        match env.formFile with
        | .error _ => (writeFailureResponse h 400 "Missing public key file", [])
        | .ok userPubKey =>
          if !(validSSHKey userPubKey) then
            (writeFailureResponse h 400 "Invalid File, bad re",
              [.validateKey userPubKey])
          else
            match env.genSSHCertFileString targetUser userPubKey state.Signer
                state.HostIdentity with
            | .error _ =>
              (writeFailureResponse h 500 "",
                [.validateKey userPubKey, .oraclePost targetUser userPubKey])
            | .ok cert =>
              (successResponse h cert,
                [.validateKey userPubKey, .oraclePost targetUser userPubKey])
    else
      (writeFailureResponse h 405 "", [])

/- ---------------------------------------------------------------------
   Concrete instances used by the witnesses.
   --------------------------------------------------------------------- -/

def exBase (ht : String) : baseConfig :=
  ⟨"addr", "cert.pem", "key.pem", "ldap", "ca.key", ht⟩

def exConfig (urls ht : String) : AppConfigFile :=
  ⟨exBase ht, ⟨"uid=%s,ou=people", urls⟩⟩

def exState (urls ht : String) : RuntimeState :=
  ⟨exConfig urls ht, "signer", "host"⟩

/-- Environment in which every LDAP backend answers Authenticated. -/
def envAllow : AuthEnv :=
  ⟨fun p _ => p, fun u => some u, fun _ _ _ _ => .ok true,
    fun _ => .error (), fun _ _ _ => .error ()⟩

/-- Environment in which every LDAP backend answers Unauthenticated. -/
def envDeny : AuthEnv :=
  ⟨fun p _ => p, fun u => some u, fun _ _ _ _ => .ok false,
    fun _ => .error (), fun _ _ _ => .error ()⟩

/-- Environment in which the URL "bad" does not parse and every other
backend answers Authenticated. -/
def envSkipBad : AuthEnv :=
  ⟨fun p _ => p, fun u => if u = "bad" then none else some u,
    fun _ _ _ _ => .ok true, fun _ => .error (), fun _ _ _ => .error ()⟩

/-- Environment in which the exchange with "u1" errors (unreachable) and
every other backend answers Unauthenticated. -/
def envU1Down : AuthEnv :=
  ⟨fun p _ => p, fun u => some u,
    fun u _ _ _ => if u = "u1" then .error () else .ok false,
    fun _ => .error (), fun _ _ _ => .error ()⟩

/-- Environment in which every external call fails structurally. -/
def envAllFail : AuthEnv :=
  ⟨fun p _ => p, fun _ => none, fun _ _ _ _ => .error (),
    fun _ => .error (), fun _ _ _ => .error ()⟩

/-- Handler environment from an authenticator environment and fixed results
of the signing oracle and of the multipart machinery. -/
def exHandlerEnv (a : AuthEnv) (g : Except Unit String)
    (p : Except Unit Unit) (f : Except Unit String)
    (gp : Except Unit String) : HandlerEnv :=
  ⟨a, fun _ _ _ => g, fun _ _ _ _ => gp, fun _ => p, f⟩

/- ---------------------------------------------------------------------
   Helper lemmas about the LDAP fallback loop.
   --------------------------------------------------------------------- -/

theorem checkLdapBackends_cons_fail (env : AuthEnv)
    (bindDN password ldapUrl : String) (rest : List String)
    (hfail : structFail env bindDN password ldapUrl) :
    checkLdapBackends env bindDN password (ldapUrl :: rest) =
      ((checkLdapBackends env bindDN password rest).1,
        AuthEvent.ldap ldapUrl :: (checkLdapBackends env bindDN password rest).2) := by
  rcases hfail with hnone | ⟨u, hu, e, he⟩
  · simp [checkLdapBackends, hnone]
  · simp [checkLdapBackends, hu, he]

theorem checkLdapBackends_all_fail (env : AuthEnv) (bindDN password : String)
    (pre rest : List String)
    (hpre : ∀ u ∈ pre, structFail env bindDN password u) :
    checkLdapBackends env bindDN password (pre ++ rest) =
      ((checkLdapBackends env bindDN password rest).1,
        pre.map AuthEvent.ldap ++ (checkLdapBackends env bindDN password rest).2) := by
  induction pre with
  | nil => simp
  | cons u pr ih =>
    rw [List.cons_append,
      checkLdapBackends_cons_fail env bindDN password u (pr ++ rest)
        (hpre u (List.mem_cons_self u pr)),
      ih (fun x hx => hpre x (List.mem_cons_of_mem u hx))]
    simp

theorem checkLdapBackends_cons_definitive (env : AuthEnv)
    (bindDN password ldapUrl : String) (rest : List String) (v : Bool)
    (hdef : evalDefinitive env bindDN password ldapUrl = some v) :
    checkLdapBackends env bindDN password (ldapUrl :: rest) =
      (some v, [AuthEvent.ldap ldapUrl]) := by
  unfold evalDefinitive at hdef
  split at hdef
  · exact absurd hdef (by simp)
  · rename_i u hp
    split at hdef
    · exact absurd hdef (by simp)
    · rename_i w hc
      simp only [Option.some.injEq] at hdef
      subst hdef
      simp [checkLdapBackends, hp, hc]

/- ---------------------------------------------------------------------
   Claims C2, C3, C4.
   --------------------------------------------------------------------- -/

/-- Claim C2: when every backend before `ldapUrl` fails structurally and
`ldapUrl` evaluates the credential definitively with verdict `v`, the
authenticator returns exactly that verdict, and the consultation trace stops
at `ldapUrl`: no later LDAP URL and not the htpasswd file is ever consulted,
whatever the environment would answer for them. -/
theorem C2_first_definitive_verdict_wins (env : AuthEnv)
    (username password : String) (config : AppConfigFile)
    (pre post : List String) (ldapUrl : String) (v : Bool)
    (hsplit : splitTargetURLs config.Ldap.LDAP_Target_URLs =
      pre ++ ldapUrl :: post)
    (hpre : ∀ u ∈ pre, structFail env
      (convertToBindDN env username config.Ldap.Bind_Pattern) password u)
    (hdef : evalDefinitive env
      (convertToBindDN env username config.Ldap.Bind_Pattern) password ldapUrl
      = some v) :
    checkUserPassword env username password config =
      (.ok v, (pre ++ [ldapUrl]).map AuthEvent.ldap) := by
  simp only [checkUserPassword]
  rw [hsplit, checkLdapBackends_all_fail env _ password pre (ldapUrl :: post) hpre,
    checkLdapBackends_cons_definitive env _ password ldapUrl post v hdef]
  simp

/-- Witness for C2: LDAP URL "bad" fails to parse, "good" answers
Authenticated; the verdict of "good" is returned and only those two backends
appear in the trace. -/
theorem C2_first_definitive_verdict_wins_witness :
    checkUserPassword envSkipBad "alice" "pw" (exConfig "bad,good" "") =
      (.ok true, (["bad"] ++ ["good"]).map AuthEvent.ldap) :=
  C2_first_definitive_verdict_wins envSkipBad "alice" "pw"
    (exConfig "bad,good" "") ["bad"] [] "good" true (by decide)
    (by
      intro u hu
      simp only [List.mem_singleton] at hu
      subst hu
      exact Or.inl (by decide))
    (by decide)

/-- Claim C3: backends that fail structurally (URL does not parse, or the
LDAP exchange errors) are skipped, not treated as a deny: the authenticator
returns the verdict of the first subsequent backend that evaluates the
credential. -/
theorem C3_structural_failures_skipped (env : AuthEnv)
    (username password : String) (config : AppConfigFile)
    (pre post : List String) (ldapUrl : String) (v : Bool)
    (hsplit : splitTargetURLs config.Ldap.LDAP_Target_URLs =
      pre ++ ldapUrl :: post)
    (hpre : ∀ u ∈ pre, structFail env
      (convertToBindDN env username config.Ldap.Bind_Pattern) password u)
    (hdef : evalDefinitive env
      (convertToBindDN env username config.Ldap.Bind_Pattern) password ldapUrl
      = some v) :
    (checkUserPassword env username password config).1 = .ok v := by
  simp only [checkUserPassword]
  rw [hsplit, checkLdapBackends_all_fail env _ password pre (ldapUrl :: post) hpre,
    checkLdapBackends_cons_definitive env _ password ldapUrl post v hdef]

/-- Witness for C3: the exchange with "u1" errors (unreachable endpoint),
"u2" answers with the definitive verdict `false`; the authenticator returns
that verdict (and not an error or a skipped deny). -/
theorem C3_structural_failures_skipped_witness :
    (checkUserPassword envU1Down "alice" "pw" (exConfig "u1,u2" "")).1 =
      .ok false :=
  C3_structural_failures_skipped envU1Down "alice" "pw" (exConfig "u1,u2" "")
    ["u1"] [] "u2" false (by decide)
    (by
      intro u hu
      simp only [List.mem_singleton] at hu
      subst hu
      exact Or.inr ⟨"u1", by decide, (), by decide⟩)
    (by decide)

/-- Counterexample for C4: with one LDAP URL that fails structurally and NO
htpasswd file configured, every configured backend has failed structurally,
yet `checkUserPassword` returns the definitive deny `(false, nil)` — not an
error — and the handler answers 401 Unauthorized, not 500. -/
theorem C4_counterexample_no_htpasswd :
    envAllFail.parseLDAPURL "ldap://x" = none ∧
    splitTargetURLs (exConfig "ldap://x" "").Ldap.LDAP_Target_URLs =
      ["ldap://x"] ∧
    (exConfig "ldap://x" "").Base.Htpasswd_Filename = "" ∧
    (checkUserPassword envAllFail "alice" "pw" (exConfig "ldap://x" "")).1 =
      .ok false ∧
    (certGenHandler (exState "ldap://x" "")
      (exHandlerEnv envAllFail (.ok "CERT") (.ok ()) (.ok "k") (.ok "CERT"))
      ⟨"GET", "/certgen/alice", some ("alice", "pw")⟩).1.status = 401 := by
  refine ⟨by decide, by decide, by decide, by decide, by decide⟩

/-- Claim C4 as amended: when every LDAP URL fails structurally AND the
htpasswd file is configured but cannot be read or evaluated, the
authenticator returns an error (BackendError) and the handler surfaces it as
500; without a configured htpasswd file, all-LDAP-failure is a deny (401)
instead. -/
theorem C4_all_backends_fail_500 (state : RuntimeState) (henv : HandlerEnv)
    (r : Request) (username password : String)
    (hba : r.basicAuth = some (username, password))
    (hall : ∀ u ∈ splitTargetURLs state.Config.Ldap.LDAP_Target_URLs,
      structFail henv.auth
        (convertToBindDN henv.auth username state.Config.Ldap.Bind_Pattern)
        password u)
    (hht : state.Config.Base.Htpasswd_Filename ≠ "")
    (hhf : htpasswdStructFail henv.auth username password
      state.Config.Base.Htpasswd_Filename) :
    (checkUserPassword henv.auth username password state.Config).1 =
      .error () ∧
    (certGenHandler state henv r).1.status = 500 := by
  have hcup : (checkUserPassword henv.auth username password state.Config).1 =
      .error () := by
    simp only [checkUserPassword]
    have hl := checkLdapBackends_all_fail henv.auth
      (convertToBindDN henv.auth username state.Config.Ldap.Bind_Pattern)
      password (splitTargetURLs state.Config.Ldap.LDAP_Target_URLs) [] hall
    rw [List.append_nil] at hl
    rw [hl]
    simp only [checkLdapBackends]
    rcases hhf with hread | ⟨buf, hbuf, hchk⟩
    · simp [hread, hht]
    · simp [hbuf, hchk, hht]
  refine ⟨hcup, ?_⟩
  simp [certGenHandler, checkAuth, hba, hcup, writeFailureResponse]

/-- Witness for C4 (amended): the single LDAP URL fails to parse and the
configured htpasswd file cannot be read; the authenticator errors and the
handler answers 500. -/
theorem C4_all_backends_fail_500_witness :
    (checkUserPassword envAllFail "alice" "pw" (exConfig "ldap://x" "f")).1 =
      .error () ∧
    (certGenHandler (exState "ldap://x" "f")
      (exHandlerEnv envAllFail (.ok "CERT") (.ok ()) (.ok "k") (.ok "CERT"))
      ⟨"GET", "/certgen/alice", some ("alice", "pw")⟩).1.status = 500 :=
  C4_all_backends_fail_500 (exState "ldap://x" "f")
    (exHandlerEnv envAllFail (.ok "CERT") (.ok ()) (.ok "k") (.ok "CERT"))
    ⟨"GET", "/certgen/alice", some ("alice", "pw")⟩ "alice" "pw" rfl
    (by
      intro u hu
      exact Or.inl rfl)
    (by decide)
    (Or.inl rfl)

/- ---------------------------------------------------------------------
   Claims C1, C7, C8, C9, C10 — the issuance handler.
   --------------------------------------------------------------------- -/

/-- Claim C1: whenever the request authenticates as `authUser` and the
identity taken from the path after the "/certgen/" route is not string-equal
to `authUser`, the handler answers 403 Forbidden and performs no key
validation and no signing-oracle call at all (empty event trace). -/
theorem C1_identity_mismatch_forbidden (state : RuntimeState)
    (henv : HandlerEnv) (r : Request) (authUser : String)
    (hauth : checkAuth henv.auth {} r state.Config = .ok authUser)
    (hne : authUser ≠ r.path.drop CERTGEN_PATH.length) :
    (certGenHandler state henv r).1.status = 403 ∧
    (certGenHandler state henv r).2 = [] := by
  simp only [certGenHandler]
  rw [hauth]
  simp only [Except.ok.injEq]
  rw [if_pos hne]
  simp [writeFailureResponse]

/-- Witness for C1: "alice" authenticates and asks for "/certgen/bob". -/
theorem C1_identity_mismatch_forbidden_witness :
    (certGenHandler (exState "ldap://x" "")
      (exHandlerEnv envAllow (.ok "CERT") (.ok ()) (.ok "k") (.ok "CERT"))
      ⟨"POST", "/certgen/bob", some ("alice", "pw")⟩).1.status = 403 ∧
    (certGenHandler (exState "ldap://x" "")
      (exHandlerEnv envAllow (.ok "CERT") (.ok ()) (.ok "k") (.ok "CERT"))
      ⟨"POST", "/certgen/bob", some ("alice", "pw")⟩).2 = [] :=
  C1_identity_mismatch_forbidden (exState "ldap://x" "")
    (exHandlerEnv envAllow (.ok "CERT") (.ok ()) (.ok "k") (.ok "CERT"))
    ⟨"POST", "/certgen/bob", some ("alice", "pw")⟩ "alice" (by decide)
    (by decide)

/-- Claim C7: for an authenticated, identity-matching request, a failing key
lookup by the signing oracle on the GET path yields 404 NotFound, while a
failing signing of the caller-supplied key on the POST path yields 500
InternalError. -/
theorem C7_signing_failure_classification :
    (∀ (state : RuntimeState) (henv : HandlerEnv) (r : Request)
        (authUser : String),
      checkAuth henv.auth {} r state.Config = .ok authUser →
      authUser = r.path.drop CERTGEN_PATH.length →
      r.method = "GET" →
      henv.genSSHCertFileStringFromSSSDPublicKey
          (r.path.drop CERTGEN_PATH.length) state.Signer state.HostIdentity =
        .error () →
      (certGenHandler state henv r).1.status = 404) ∧
    (∀ (state : RuntimeState) (henv : HandlerEnv) (r : Request)
        (authUser key : String),
      checkAuth henv.auth {} r state.Config = .ok authUser →
      authUser = r.path.drop CERTGEN_PATH.length →
      r.method = "POST" →
      henv.parseMultipartForm 10000000 = .ok () →
      henv.formFile = .ok key →
      validSSHKey key = true →
      henv.genSSHCertFileString (r.path.drop CERTGEN_PATH.length) key
          state.Signer state.HostIdentity = .error () →
      (certGenHandler state henv r).1.status = 500) := by
  constructor
  · intro state henv r authUser hauth heq hm hgen
    simp only [certGenHandler]
    rw [hauth]
    simp only [Except.ok.injEq]
    rw [if_neg (by simp [heq]), if_pos hm, hgen]
    simp [notFoundResponse]
  · intro state henv r authUser key hauth heq hm hpf hff hvk hgen
    simp only [certGenHandler]
    rw [hauth]
    simp only [Except.ok.injEq]
    rw [if_neg (by simp [heq]), if_neg (by simp [hm]), if_pos hm, hpf, hff]
    simp [hvk, hgen, writeFailureResponse]

/-- Witness for C7: both classifications at concrete requests for "alice". -/
theorem C7_signing_failure_classification_witness :
    (certGenHandler (exState "ldap://x" "")
      (exHandlerEnv envAllow (.error ()) (.ok ()) (.ok "k") (.ok "CERT"))
      ⟨"GET", "/certgen/alice", some ("alice", "pw")⟩).1.status = 404 ∧
    (certGenHandler (exState "ldap://x" "")
      (exHandlerEnv envAllow (.ok "CERT") (.ok ())
        (.ok "ssh-rsa AAAA comment\n") (.error ()))
      ⟨"POST", "/certgen/alice", some ("alice", "pw")⟩).1.status = 500 :=
  ⟨C7_signing_failure_classification.1 (exState "ldap://x" "")
      (exHandlerEnv envAllow (.error ()) (.ok ()) (.ok "k") (.ok "CERT"))
      ⟨"GET", "/certgen/alice", some ("alice", "pw")⟩ "alice" (by decide)
      (by decide) rfl rfl,
    C7_signing_failure_classification.2 (exState "ldap://x" "")
      (exHandlerEnv envAllow (.ok "CERT") (.ok ())
        (.ok "ssh-rsa AAAA comment\n") (.error ()))
      ⟨"POST", "/certgen/alice", some ("alice", "pw")⟩ "alice"
      "ssh-rsa AAAA comment\n" (by decide) (by decide) rfl rfl rfl (by decide)
      rfl⟩

/-- Claim C8: a request with an absent or malformed Basic-Auth header, and a
request whose credential gets a definitive deny, are both answered 401 with
the challenge header `WWW-Authenticate: Basic realm="User Credentials"`. -/
theorem C8_unauthorized_has_challenge :
    (∀ (state : RuntimeState) (henv : HandlerEnv) (r : Request),
      r.basicAuth = none →
      (certGenHandler state henv r).1.status = 401 ∧
      (certGenHandler state henv r).1.headers.wwwAuthenticate =
        some "Basic realm=\"User Credentials\"") ∧
    (∀ (state : RuntimeState) (henv : HandlerEnv) (r : Request)
        (username password : String),
      r.basicAuth = some (username, password) →
      (checkUserPassword henv.auth username password state.Config).1 =
        .ok false →
      (certGenHandler state henv r).1.status = 401 ∧
      (certGenHandler state henv r).1.headers.wwwAuthenticate =
        some "Basic realm=\"User Credentials\"") := by
  constructor
  · intro state henv r hba
    simp [certGenHandler, checkAuth, hba, writeFailureResponse]
  · intro state henv r username password hba hdeny
    simp [certGenHandler, checkAuth, hba, hdeny, writeFailureResponse]

/-- Witness for C8: a request without credentials and a request denied by
the backend. -/
theorem C8_unauthorized_has_challenge_witness :
    ((certGenHandler (exState "ldap://x" "")
        (exHandlerEnv envAllow (.ok "CERT") (.ok ()) (.ok "k") (.ok "CERT"))
        ⟨"GET", "/certgen/alice", none⟩).1.status = 401 ∧
      (certGenHandler (exState "ldap://x" "")
        (exHandlerEnv envAllow (.ok "CERT") (.ok ()) (.ok "k") (.ok "CERT"))
        ⟨"GET", "/certgen/alice", none⟩).1.headers.wwwAuthenticate =
        some "Basic realm=\"User Credentials\"") ∧
    ((certGenHandler (exState "ldap://x" "")
        (exHandlerEnv envDeny (.ok "CERT") (.ok ()) (.ok "k") (.ok "CERT"))
        ⟨"GET", "/certgen/alice", some ("alice", "bad-pw")⟩).1.status = 401 ∧
      (certGenHandler (exState "ldap://x" "")
        (exHandlerEnv envDeny (.ok "CERT") (.ok ()) (.ok "k") (.ok "CERT"))
        ⟨"GET", "/certgen/alice", some ("alice", "bad-pw")⟩).1.headers.wwwAuthenticate =
        some "Basic realm=\"User Credentials\"") :=
  ⟨C8_unauthorized_has_challenge.1 (exState "ldap://x" "")
      (exHandlerEnv envAllow (.ok "CERT") (.ok ()) (.ok "k") (.ok "CERT"))
      ⟨"GET", "/certgen/alice", none⟩ rfl,
    C8_unauthorized_has_challenge.2 (exState "ldap://x" "")
      (exHandlerEnv envDeny (.ok "CERT") (.ok ()) (.ok "k") (.ok "CERT"))
      ⟨"GET", "/certgen/alice", some ("alice", "bad-pw")⟩ "alice" "bad-pw" rfl
      (by decide)⟩

/-- Claim C9: an authenticated, identity-matching request whose method is
neither GET nor POST is answered 405 MethodNotAllowed, with no key
validation and no signing-oracle call (empty event trace). -/
theorem C9_method_not_allowed (state : RuntimeState) (henv : HandlerEnv)
    (r : Request) (authUser : String)
    (hauth : checkAuth henv.auth {} r state.Config = .ok authUser)
    (heq : authUser = r.path.drop CERTGEN_PATH.length)
    (hg : r.method ≠ "GET") (hp : r.method ≠ "POST") :
    (certGenHandler state henv r).1.status = 405 ∧
    (certGenHandler state henv r).2 = [] := by
  simp only [certGenHandler]
  rw [hauth]
  simp only [Except.ok.injEq]
  rw [if_neg (by simp [heq]), if_neg hg, if_neg hp]
  simp [writeFailureResponse]

/-- Witness for C9: a PUT request for the authenticated identity. -/
theorem C9_method_not_allowed_witness :
    (certGenHandler (exState "ldap://x" "")
      (exHandlerEnv envAllow (.ok "CERT") (.ok ()) (.ok "k") (.ok "CERT"))
      ⟨"PUT", "/certgen/alice", some ("alice", "pw")⟩).1.status = 405 ∧
    (certGenHandler (exState "ldap://x" "")
      (exHandlerEnv envAllow (.ok "CERT") (.ok ()) (.ok "k") (.ok "CERT"))
      ⟨"PUT", "/certgen/alice", some ("alice", "pw")⟩).2 = [] :=
  C9_method_not_allowed (exState "ldap://x" "")
    (exHandlerEnv envAllow (.ok "CERT") (.ok ()) (.ok "k") (.ok "CERT"))
    ⟨"PUT", "/certgen/alice", some ("alice", "pw")⟩ "alice" (by decide)
    (by decide) (by decide) (by decide)

/-- Claim C10: `writeFailureResponse` adds the WWW-Authenticate challenge
exactly when the code is 401 and leaves every other header of the response
unchanged, whatever the code. -/
theorem C10_challenge_only_on_401 (h : Headers) (code : Nat)
    (message : String) :
    (writeFailureResponse h code message).headers.wwwAuthenticate =
      (if code = 401 then some "Basic realm=\"User Credentials\""
        else h.wwwAuthenticate) ∧
    (writeFailureResponse h code message).headers.contentDisposition =
      h.contentDisposition ∧
    (writeFailureResponse h code message).headers.others = h.others := by
  unfold writeFailureResponse
  by_cases hc : code = 401 <;> simp [hc]

/- ---------------------------------------------------------------------
   Claim C5 — the key grammar.  The backtracking matcher is related to the
   declarative decomposition, piece by piece.
   --------------------------------------------------------------------- -/

theorem commentNl_nil (n : Nat) : commentNl n [] = true := by
  rw [commentNl.eq_def]

theorem commentNl_newline (n : Nat) (t : List Char) :
    commentNl n ('\n' :: t) = t.isEmpty := by
  rw [commentNl.eq_def]
  simp

theorem commentNl_zero_cons (c : Char) (t : List Char) (hc : ¬ c = '\n') :
    commentNl 0 (c :: t) = false := by
  rw [commentNl.eq_def]
  simp [hc]

theorem commentNl_succ_cons (c : Char) (t : List Char) (m : Nat)
    (hc : ¬ c = '\n') : commentNl (m + 1) (c :: t) = commentNl m t := by
  rw [commentNl.eq_def]
  simp [hc]

theorem commentNl_iff (cs : List Char) : ∀ n : Nat, commentNl n cs = true ↔
    ∃ body nl, cs = body ++ nl ∧ body.length ≤ n ∧
      (∀ c ∈ body, ¬ c = '\n') ∧ (nl = [] ∨ nl = ['\n']) := by
  induction cs with
  | nil =>
    intro n
    constructor
    · intro _
      exact ⟨[], [], rfl, by simp, by simp, Or.inl rfl⟩
    · intro _
      exact commentNl_nil n
  | cons c t ih =>
    intro n
    by_cases hc : c = '\n'
    · subst hc
      rw [commentNl_newline]
      constructor
      · intro h
        cases t with
        | nil => exact ⟨[], ['\n'], rfl, by simp, by simp, Or.inr rfl⟩
        | cons x xs => simp at h
      · rintro ⟨body, nl, heq, hlen, hbody, hnl⟩
        cases body with
        | nil =>
          simp only [List.nil_append] at heq
          rcases hnl with rfl | rfl
          · cases heq
          · simp only [List.cons.injEq] at heq
            obtain ⟨-, ht⟩ := heq
            subst ht
            rfl
        | cons b bs =>
          simp only [List.cons_append, List.cons.injEq] at heq
          exact absurd heq.1.symm (hbody b (by simp))
    · cases n with
      | zero =>
        rw [commentNl_zero_cons c t hc]
        constructor
        · intro h
          cases h
        · rintro ⟨body, nl, heq, hlen, hbody, hnl⟩
          have hb : body = [] := List.length_eq_zero.mp (Nat.le_zero.mp hlen)
          subst hb
          simp only [List.nil_append] at heq
          rcases hnl with rfl | rfl
          · cases heq
          · simp only [List.cons.injEq] at heq
            exact absurd heq.1 hc
      | succ m =>
        rw [commentNl_succ_cons c t m hc]
        constructor
        · intro h
          rcases (ih m).mp h with ⟨body, nl, heq, hlen, hbody, hnl⟩
          refine ⟨c :: body, nl, by simp [heq], by simpa using hlen, ?_, hnl⟩
          intro x hx
          rcases List.mem_cons.mp hx with rfl | hx
          · exact hc
          · exact hbody x hx
        · rintro ⟨body, nl, heq, hlen, hbody, hnl⟩
          cases body with
          | nil =>
            simp only [List.nil_append] at heq
            rcases hnl with rfl | rfl
            · cases heq
            · simp only [List.cons.injEq] at heq
              exact absurd heq.1 hc
          | cons b bs =>
            simp only [List.cons_append, List.cons.injEq] at heq
            obtain ⟨-, hteq⟩ := heq
            refine (ih m).mpr ⟨bs, nl, hteq, by simpa using hlen, ?_, hnl⟩
            intro x hx
            exact hbody x (by simp [hx])

theorem matchSpComment_iff (cs : List Char) : matchSpComment cs = true ↔
    ∃ sep comment nl, cs = sep ++ comment ++ nl ∧ (sep = [] ∨ sep = [' ']) ∧
      comment.length ≤ 512 ∧ (∀ c ∈ comment, ¬ c = '\n') ∧
      (nl = [] ∨ nl = ['\n']) := by
  unfold matchSpComment
  constructor
  · intro h
    simp only [Bool.or_eq_true] at h
    rcases h with h | h
    · rcases (commentNl_iff cs 512).mp h with ⟨body, nl, heq, hlen, hbody, hnl⟩
      exact ⟨[], body, nl, by simp [heq], Or.inl rfl, hlen, hbody, hnl⟩
    · split at h
      · rename_i t
        rcases (commentNl_iff t 512).mp h with ⟨body, nl, heq, hlen, hbody, hnl⟩
        exact ⟨[' '], body, nl, by simp [heq], Or.inr rfl, hlen, hbody, hnl⟩
      · cases h
  · rintro ⟨sep, comment, nl, heq, hsep, hlen, hcom, hnl⟩
    rcases hsep with rfl | rfl
    · simp only [List.nil_append] at heq
      subst heq
      have h := (commentNl_iff (comment ++ nl) 512).mpr
        ⟨comment, nl, rfl, hlen, hcom, hnl⟩
      simp [h]
    · subst heq
      have h := (commentNl_iff (comment ++ nl) 512).mpr
        ⟨comment, nl, rfl, hlen, hcom, hnl⟩
      simp [h]

theorem eqPadWith_iff (k : List Char → Bool) (cs : List Char) :
    eqPadWith k cs = true ↔
    ∃ pad rest, cs = pad ++ rest ∧
      (pad = [] ∨ pad = ['='] ∨ pad = ['=', '=']) ∧ k rest = true := by
  unfold eqPadWith
  constructor
  · intro h
    simp only [Bool.or_eq_true] at h
    rcases h with h | h
    · exact ⟨[], cs, rfl, Or.inl rfl, h⟩
    · split at h
      · rename_i t
        simp only [Bool.or_eq_true] at h
        rcases h with h | h
        · exact ⟨['='], t, rfl, Or.inr (Or.inl rfl), h⟩
        · split at h
          · rename_i t2
            exact ⟨['=', '='], t2, rfl, Or.inr (Or.inr rfl), h⟩
          · cases h
      · cases h
  · rintro ⟨pad, rest, rfl, hpad, hk⟩
    rcases hpad with rfl | rfl | rfl
    · simp [hk]
    · simp [hk]
    · simp [hk]

theorem restWith_iff (k : List Char → Bool) (cs : List Char) :
    restWith k cs = true ↔
    ∃ b64 rest, cs = b64 ++ rest ∧ (∀ c ∈ b64, isB64Char c = true) ∧
      k rest = true := by
  induction cs with
  | nil =>
    simp only [restWith]
    constructor
    · intro h
      exact ⟨[], [], rfl, by simp, h⟩
    · rintro ⟨b64, rest, heq, hb, hk⟩
      obtain ⟨rfl, rfl⟩ := List.append_eq_nil.mp heq.symm
      exact hk
  | cons c t ih =>
    simp only [restWith, Bool.or_eq_true, Bool.and_eq_true]
    constructor
    · rintro (h | ⟨hb, hr⟩)
      · exact ⟨[], c :: t, rfl, by simp, h⟩
      · rcases ih.mp hr with ⟨b64, rest, heq, hball, hk⟩
        refine ⟨c :: b64, rest, by simp [heq], ?_, hk⟩
        intro x hx
        rcases List.mem_cons.mp hx with rfl | hx
        · exact hb
        · exact hball x hx
    · rintro ⟨b64, rest, heq, hball, hk⟩
      cases b64 with
      | nil =>
        simp only [List.nil_append] at heq
        exact Or.inl (heq ▸ hk)
      | cons b bs =>
        simp only [List.cons_append, List.cons.injEq] at heq
        obtain ⟨rfl, hteq⟩ := heq
        refine Or.inr ⟨hball c (by simp), ?_⟩
        refine ih.mpr ⟨bs, rest, hteq, ?_, hk⟩
        intro x hx
        exact hball x (by simp [hx])

theorem payloadWith_iff (k : List Char → Bool) (cs : List Char) :
    payloadWith k cs = true ↔
    ∃ b64 rest, cs = b64 ++ rest ∧ b64 ≠ [] ∧
      (∀ c ∈ b64, isB64Char c = true) ∧ k rest = true := by
  cases cs with
  | nil =>
    simp only [payloadWith]
    constructor
    · intro h
      cases h
    · rintro ⟨b64, rest, heq, hne, -, -⟩
      exact absurd (List.append_eq_nil.mp heq.symm).1 hne
  | cons c t =>
    simp only [payloadWith, Bool.and_eq_true]
    constructor
    · rintro ⟨hb, hr⟩
      rcases (restWith_iff k t).mp hr with ⟨b64, rest, heq, hball, hk⟩
      refine ⟨c :: b64, rest, by simp [heq], by simp, ?_, hk⟩
      intro x hx
      rcases List.mem_cons.mp hx with rfl | hx
      · exact hb
      · exact hball x hx
    · rintro ⟨b64, rest, heq, hne, hball, hk⟩
      cases b64 with
      | nil => exact absurd rfl hne
      | cons b bs =>
        simp only [List.cons_append, List.cons.injEq] at heq
        obtain ⟨rfl, hteq⟩ := heq
        refine ⟨hball c (by simp), ?_⟩
        refine (restWith_iff k t).mpr ⟨bs, rest, hteq, ?_, hk⟩
        intro x hx
        exact hball x (by simp [hx])

theorem stripLit_iff (ps : List Char) : ∀ cs rest : List Char,
    stripLit ps cs = some rest ↔ cs = ps ++ rest := by
  induction ps with
  | nil =>
    intro cs rest
    simp only [stripLit, Option.some.injEq, List.nil_append]
  | cons p ps ih =>
    intro cs rest
    cases cs with
    | nil =>
      simp [stripLit]
    | cons c t =>
      simp only [stripLit]
      by_cases hpc : p = c
      · subst hpc
        rw [if_pos rfl, ih t rest]
        simp
      · rw [if_neg hpc]
        constructor
        · intro h
          cases h
        · intro h
          simp only [List.cons_append, List.cons.injEq] at h
          exact absurd h.1.symm hpc

theorem keyLineWith_iff (k : List Char → Bool) (cs : List Char) :
    keyLineWith k cs = true ↔
    ∃ alg, alg ∈ sshKeyAlgs ∧ ∃ rest, cs = alg ++ [' '] ++ rest ∧
      payloadWith (eqPadWith k) rest = true := by
  unfold keyLineWith
  rw [List.any_eq_true]
  constructor
  · rintro ⟨alg, halg, h⟩
    split at h
    · rename_i rest hstrip
      exact ⟨alg, halg, rest, (stripLit_iff _ _ _).mp hstrip, h⟩
    · cases h
  · rintro ⟨alg, halg, rest, heq, hpl⟩
    refine ⟨alg, halg, ?_⟩
    have hstrip : stripLit (alg ++ [' ']) cs = some rest :=
      (stripLit_iff _ _ _).mpr heq
    rw [hstrip]
    exact hpl

/-- The matcher of the source regex accepts exactly the declarative amended
grammar (comment separator optional). -/
theorem validSSHKey_iff_amended (s : String) :
    validSSHKey s = true ↔ amendedKeyGrammar s := by
  unfold validSSHKey validSSHKeyChars amendedKeyGrammar
  rw [keyLineWith_iff]
  constructor
  · rintro ⟨alg, halg, rest, heq, hpl⟩
    rcases (payloadWith_iff _ _).mp hpl with ⟨b64, r2, rfl, hne, hball, hek⟩
    rcases (eqPadWith_iff _ _).mp hek with ⟨pad, r3, rfl, hpad, hsp⟩
    rcases (matchSpComment_iff _).mp hsp with
      ⟨sep, comment, nl, rfl, hsep, hlen, hcom, hnl⟩
    refine ⟨alg, b64, pad, sep, comment, nl, ?_, halg, hne, hball, hpad,
      hsep, hlen, hcom, hnl⟩
    rw [heq]
    simp [List.append_assoc]
  · rintro ⟨alg, b64, pad, sep, comment, nl, heq, halg, hne, hball, hpad,
      hsep, hlen, hcom, hnl⟩
    refine ⟨alg, halg, b64 ++ (pad ++ (sep ++ comment ++ nl)), ?_, ?_⟩
    · rw [heq]
      simp [List.append_assoc]
    · refine (payloadWith_iff _ _).mpr ⟨b64, _, rfl, hne, hball, ?_⟩
      refine (eqPadWith_iff _ _).mpr ⟨pad, _, rfl, hpad, ?_⟩
      exact (matchSpComment_iff _).mpr ⟨sep, comment, nl, rfl, hsep, hlen,
        hcom, hnl⟩

/-- Counterexample for C5: the code's regex accepts
"ssh-rsa AAAA@host\n", whose comment "@host" is NOT separated from the
base64 payload by a space — the claimed grammar (which demands the space)
rejects that very string, so the validator does not accept exactly the
claimed set. -/
theorem C5_counterexample_missing_space :
    validSSHKey "ssh-rsa AAAA@host\n" = true ∧
    claimedKeyGrammar "ssh-rsa AAAA@host\n" = false :=
  ⟨by decide, by decide⟩

/-- Claim C5 as amended: the POST-path key validator accepts exactly the
single-line strings `<algorithm-token><space><base64-payload>` followed by
an OPTIONAL comment of at most 512 non-newline characters that need not be
separated from the payload by a space, optionally ending in one newline;
the four example behaviours of the claim all hold. -/
theorem C5_key_grammar_amended :
    (∀ s : String, validSSHKey s = true ↔ amendedKeyGrammar s) ∧
    validSSHKey "ssh-ed25519 AAAAC3NzaC1lZDI1NTE5AAAAIxxx user@host\n" =
      true ∧
    validSSHKey "ssh-rsa AAAAB3xy\nssh-rsa AAAAB3xy\n" = false ∧
    validSSHKey "ssh-bogus AAAAzz \n" = false ∧
    validSSHKey
      ("ssh-rsa AAAA " ++ String.mk (List.replicate 600 'a') ++ "\n") =
      false ∧
    validSSHKey "ssh-rsa AAAA@host\n" = true :=
  ⟨validSSHKey_iff_amended, by decide, by decide, by decide, by decide,
    by decide⟩

end SSHCertGen
